import Mathlib

/-!
Verification of the MTP session-layer specification against the source of
android-file-transfer-linux.  The development shallowly embeds

* `mtp/ptp/JoinedObjectStream.h` — joined input/output streams, and
* `cli/Session.cpp` — path resolution, recursive put, date formatting.

Bytes are modelled as natural numbers.  An input stream is modelled by the
list of bytes it has left to deliver (per the spec, `read(buf) → n` with
`n < requested` signalling end-of-stream, so a deterministic input stream is
characterised by its remaining content).  An output stream is modelled by its
remaining capacity together with the bytes written so far (a short write
signals that the stream is full).
-/

set_option autoImplicit false

namespace Aftl

abbrev Byte := Nat

/-- Modelled from the spec: stream error kinds relevant to the claims;
`CancellableStream::CheckCancelled` (not under src/) throws `Cancelled` when
the shared cancellation flag is tripped. -/
inductive StreamError where
  | Cancelled
deriving DecidableEq, Repr

/-- Modelled from the spec: an `IObjectInputStream` delivers up to `size`
bytes per `Read`; a short return signals end-of-stream.  The stream is its
remaining content, `Read` returns the bytes delivered and the new state. -/
def streamRead (s : List Byte) (size : Nat) : List Byte × List Byte :=
  (s.take size, s.drop size)

/-- Modelled from the spec: an `IObjectOutputStream` accepts bytes up to its
remaining capacity; a short write signals that the stream is full. -/
structure OutStream where
  capacity : Nat
  written : List Byte
deriving DecidableEq, Repr

/-- Modelled from the spec: `Write` on an output stream accepts
`min data.length capacity` bytes and appends them to the written content. -/
def streamWrite (s : OutStream) (data : List Byte) : Nat × OutStream :=
  let k := min data.length s.capacity
  (k, { capacity := s.capacity - k, written := s.written ++ data.take k })

/-- State of `mtp::JoinedObjectInputStream` (JoinedObjectStream.h): the two
sub-streams, the sizes captured at construction, the `_stream1Exhausted`
flag, the cancellation flag of the `CancellableStream` base, and a count of
the `OnStream1Exhausted` hook invocations. -/
structure JoinedObjectInputStream where
  stream1 : List Byte
  stream2 : List Byte
  stream1Size : Nat
  stream2Size : Nat
  stream1Exhausted : Bool
  cancelled : Bool
  exhaustedCalls : Nat
deriving DecidableEq, Repr

/-- Constructor `JoinedObjectInputStream(s1, s2)`: captures
`s1->GetSize()` and `s2->GetSize()`; the base-class constructor sets
`_stream1Exhausted = false`. -/
def mkJoinedInput (s1 s2 : List Byte) : JoinedObjectInputStream :=
  { stream1 := s1, stream2 := s2
    stream1Size := s1.length, stream2Size := s2.length
    stream1Exhausted := false, cancelled := false, exhaustedCalls := 0 }

/-- GetSize of an underlying input stream in the list model. -/
def streamGetSize (s : List Byte) : Nat := s.length

/-- `JoinedObjectInputStream::GetSize`: returns `_stream1Size + _stream2Size`. -/
def JoinedObjectInputStream.GetSize (st : JoinedObjectInputStream) : Nat :=
  st.stream1Size + st.stream2Size

/-- `JoinedObjectInputStreamBase::Read` (JoinedObjectStream.h lines 39-56):
checks cancellation, reads from stream 1 until it returns short, then sets
`_stream1Exhausted`, invokes `OnStream1Exhausted` and fills the remainder of
the buffer from stream 2; afterwards reads only from stream 2. -/
def JoinedRead (st : JoinedObjectInputStream) (size : Nat) :
    Except StreamError (List Byte × JoinedObjectInputStream) :=
  if st.cancelled then .error .Cancelled
  else if st.stream1Exhausted = false then
    let p := streamRead st.stream1 size
    if p.1.length < size then
      let st1 := { st with
        stream1 := p.2, stream1Exhausted := true, exhaustedCalls := st.exhaustedCalls + 1 }
      let q := streamRead st1.stream2 (size - p.1.length)
      .ok (p.1 ++ q.1, { st1 with stream2 := q.2 })
    else
      .ok (p.1, { st with stream1 := p.2 })
  else
    let q := streamRead st.stream2 size
    .ok (q.1, { st with stream2 := q.2 })

/-- State of `mtp::JoinedObjectOutputStream` (JoinedObjectStream.h): two
sub-streams, the `_stream1Exhausted` flag, the cancellation flag, and a count
of `OnStream1Exhausted` invocations. -/
structure JoinedObjectOutputStream where
  stream1 : OutStream
  stream2 : OutStream
  stream1Exhausted : Bool
  cancelled : Bool
  exhaustedCalls : Nat
deriving DecidableEq, Repr

/-- Constructor `JoinedObjectOutputStream(s1, s2)`; the base-class
constructor sets `_stream1Exhausted = false`. -/
def mkJoinedOutput (s1 s2 : OutStream) : JoinedObjectOutputStream :=
  { stream1 := s1, stream2 := s2
    stream1Exhausted := false, cancelled := false, exhaustedCalls := 0 }

/-- `JoinedObjectOutputStreamBase::Write` (JoinedObjectStream.h lines
93-111): checks cancellation, writes to stream 1 until it returns short,
then sets `_stream1Exhausted`, invokes `OnStream1Exhausted` and writes the
rest of the buffer to stream 2; afterwards writes only to stream 2. -/
def JoinedWrite (st : JoinedObjectOutputStream) (data : List Byte) :
    Except StreamError (Nat × JoinedObjectOutputStream) :=
  if st.cancelled then .error .Cancelled
  else if st.stream1Exhausted = false then
    let p := streamWrite st.stream1 data
    if p.1 < data.length then
      let st1 := { st with
        stream1 := p.2, stream1Exhausted := true, exhaustedCalls := st.exhaustedCalls + 1 }
      let q := streamWrite st1.stream2 (data.drop p.1)
      .ok (p.1 + q.1, { st1 with stream2 := q.2 })
    else
      .ok (p.1, { st with stream1 := p.2 })
  else
    let q := streamWrite st.stream2 data
    .ok (q.1, { st with stream2 := q.2 })

/-- Driver reading a joined input stream to exhaustion in chunks of `chunk`
bytes, stopping at the first short read (the end-of-stream condition of the
spec); `fuel` bounds the number of calls. -/
def ReadToEnd (chunk : Nat) : Nat → JoinedObjectInputStream → List Byte
  | 0, _ => []
  | fuel + 1, st =>
    match JoinedRead st chunk with
    | .error _ => []
    | .ok (r, st2) => if r.length < chunk then r else r ++ ReadToEnd chunk fuel st2

/-- Bytes a joined input stream still has to deliver. -/
def remainingBytes (st : JoinedObjectInputStream) : List Byte :=
  (if st.stream1Exhausted then [] else st.stream1) ++ st.stream2

/-! Path and namespace layer: `cli/Session.cpp`. -/

abbrev ObjectId := Nat

/-- Sentinel `mtp::Session::Device = 0`. -/
def DeviceId : ObjectId := 0

/-- Sentinel `mtp::Session::Root = 0xFFFFFFFF`. -/
def RootId : ObjectId := 0xFFFFFFFF

/-- Error kinds thrown by the session layer, as the spec names them:
`PathNotFound` for the `could not find ... in path` exception of
`ResolveObjectChild`, and device response errors for the MTP operations. -/
inductive MtpError where
  | PathNotFound
  | AlreadyExists
  | AccessDenied
  | ResponseError (code : Nat)
deriving DecidableEq, Repr

/-- MTP object format; only Association (a directory) is distinguished. -/
inductive ObjFormat where
  | Association
  | Other
deriving DecidableEq, Repr

/-- Modelled from the spec: the device side of the MTP session operations
used by the path layer (`mtp::Session` is not under src/).  `parent` is
`GetObjectParent`, `handles` is `GetObjectHandles(storage, Any, parent)`,
`filename` is `GetObjectStringProperty(id, ObjectFilename)`,
`sendObjectInfo` is `SendObjectInfo(info, AnyStorage, parent)` returning the
new object id or the device's error, and `sendObject` is `SendObject` for
the object announced last. -/
structure Device where
  parent : ObjectId → ObjectId
  handles : ObjectId → List ObjectId
  filename : ObjectId → String
  sendObjectInfo : String → ObjFormat → ObjectId → Except MtpError ObjectId
  sendObject : ObjectId → Except MtpError Unit

/-- `Session::ResolveObjectChild` (Session.cpp lines 276-289): lists the
parent's handles and returns the first one whose `ObjectFilename` property
equals `entity`; throws (`PathNotFound`) when none matches. -/
def ResolveObjectChild (dev : Device) (parent : ObjectId) (entity : String) :
    Except MtpError ObjectId :=
  match (dev.handles parent).find? (fun o => dev.filename o == entity) with
  | some o => .ok o
  | none => .error .PathNotFound

/-- One component step of `Session::Resolve` (Session.cpp lines 300-311):
empty and `.` are no-ops, `..` asks `GetObjectParent` and folds the
`Device` sentinel back to `Root`, anything else is a child lookup. -/
def resolveStep (dev : Device) (id : ObjectId) (entity : String) :
    Except MtpError ObjectId :=
  if entity = "" ∨ entity = "." then .ok id
  else if entity = ".." then
    let p := dev.parent id
    .ok (if p = DeviceId then RootId else p)
  else ResolveObjectChild dev id entity

/-- Component tokenizer of `Session::Resolve` (Session.cpp lines 294-313):
the loop emits `substr(p, next-p)` for each slash-separated run; nothing is
emitted after a final slash (the loop condition `p < size` fails). -/
def pathComponentsAux (acc : List Char) : List Char → List String
  | [] => [String.mk acc]
  | c :: tl =>
    if c = '/' then
      match tl with
      | [] => [String.mk acc]
      | _ :: _ => String.mk acc :: pathComponentsAux [] tl
    else
      pathComponentsAux (acc ++ [c]) tl

/-- Components of a path string; the empty path yields no components. -/
def pathComponents (s : String) : List String :=
  match s.data with
  | [] => []
  | c :: cs => pathComponentsAux [] (c :: cs)

/-- Absolute-path test `BeginsWith(path, "/")` of `Session::Resolve`
(Session.cpp line 293); `strncasecmp` against `/` is a plain head check
since `/` has no letter case. -/
def isAbsolute (path : String) : Bool :=
  match path.data with
  | [] => false
  | c :: _ => c = '/'

/-- Folds the component steps of `Session::Resolve`, propagating the first
thrown error as the C++ exception would. -/
def resolveComponents (dev : Device) : ObjectId → List String → Except MtpError ObjectId
  | id, [] => .ok id
  | id, e :: rest =>
    match resolveStep dev id e with
    | .ok id2 => resolveComponents dev id2 rest
    | .error err => .error err

/-- `Session::Resolve` (Session.cpp lines 291-315): starts at `Root` for an
absolute path and at the current directory otherwise, then consumes the
slash-separated components. -/
def Resolve (dev : Device) (cd : ObjectId) (path : String) : Except MtpError ObjectId :=
  resolveComponents dev (if isAbsolute path then RootId else cd) (pathComponents path)

/-- `Session::GetFilename` (Session.cpp lines 317-321): the part of the path
after the last slash, or the whole path when it has no slash. -/
def GetFilename (path : String) : String :=
  String.mk ((path.data.reverse.takeWhile (fun c => c ≠ '/')).reverse)

/-- `Session::FormatTime` (Session.cpp lines 329-341): when the string has
exactly 15 characters with `T` at offset 8, rebuild it with separators;
otherwise return it unchanged. -/
def FormatTime (timespec : String) : String :=
  if timespec.data.length = 15 ∧ timespec.data.getD 8 ' ' = 'T' then
    String.mk (timespec.data.take 4) ++ "-" ++
    String.mk ((timespec.data.drop 4).take 2) ++ "-" ++
    String.mk ((timespec.data.drop 6).take 2) ++ " " ++
    String.mk ((timespec.data.drop 9).take 2) ++ ":" ++
    String.mk ((timespec.data.drop 11).take 2) ++ ":" ++
    String.mk ((timespec.data.drop 13).take 2)
  else timespec

/-! Recursive put: `cli/Session.cpp` lines 514-577. -/

/-- Modelled from the spec: `mtp::Session::CreateDirectory` (not under src/)
sends `SendObjectInfo` with format Association and the given filename under
`parentId`, returning the new object id or the device's error. -/
def CreateDirectory (dev : Device) (name : String) (parentId : ObjectId) :
    Except MtpError ObjectId :=
  dev.sendObjectInfo name .Association parentId

/-- `Session::MakeOrResolveDirectory` (Session.cpp lines 514-522): tries
`CreateDirectory(GetFilename(dst), parentId)`; the catch-all swallows any
exception and falls back to `ResolveObjectChild(parentId, src)` — note the
fallback matches children against the whole `src` argument. -/
def MakeOrResolveDirectory (dev : Device) (parentId : ObjectId) (dst src : String) :
    Except MtpError ObjectId :=
  match CreateDirectory dev (GetFilename dst) parentId with
  | .ok r => .ok r
  | .error _ => ResolveObjectChild dev parentId src

/-- Local filesystem node as `stat`/`readdir` present it to `Session::Put`:
a regular file, or a directory with its named entries (which may include
`.` and `..`). -/
inductive LocalNode where
  | file (size : Nat)
  | dir (entries : List (String × LocalNode))

mutual

/-- `Session::Put(parentId, dst, src)` (Session.cpp lines 524-577).  For a
directory source: `MakeOrResolveDirectory`, then the entry loop skipping
`.` and `..`; an exception from a recursive call propagates (there is no
try/catch in the loop).  For a file source: `SendObjectInfo` with the
filename of `dst`, then `SendObject`.  The result pairs the first error
thrown (if any) with the log of the `dst` arguments of every `Put` call
performed, in order. -/
def Put (dev : Device) (parentId : ObjectId) (dst src : String) :
    LocalNode → Option MtpError × List String
  | .dir entries =>
    match MakeOrResolveDirectory dev parentId dst src with
    | .error e => (some e, [dst])
    | .ok dirId =>
      let r := PutEntries dev dirId dst src entries
      (r.1, dst :: r.2)
  | .file _ =>
    match dev.sendObjectInfo (GetFilename dst) .Other parentId with
    | .error e => (some e, [dst])
    | .ok oid =>
      match dev.sendObject oid with
      | .error e => (some e, [dst])
      | .ok _ => (none, [dst])

/-- Entry loop of `Session::Put` for a directory source: skips `.` and `..`,
recurses on each remaining entry with `dst + "/" + name` and
`src + "/" + name`, and stops at the first error, which propagates. -/
def PutEntries (dev : Device) (dirId : ObjectId) (dst src : String) :
    List (String × LocalNode) → Option MtpError × List String
  | [] => (none, [])
  | (name, node) :: rest =>
    if name = "." ∨ name = ".." then PutEntries dev dirId dst src rest
    else
      match Put dev dirId (dst ++ "/" ++ name) (src ++ "/" ++ name) node with
      | (some e, log) => (some e, log)
      | (none, log) =>
        let r := PutEntries dev dirId dst src rest
        (r.1, log ++ r.2)

end

/-! Theorems. -/

/-- C2: GetSize of the joined input stream is the sum of the sizes of the
two streams captured at construction. -/
theorem c2_joined_getsize (s1 s2 : List Byte) :
    (mkJoinedInput s1 s2).GetSize = streamGetSize s1 + streamGetSize s2 := rfl

/-- C3: the cancellation flag is checked before each Read and each Write;
with the flag tripped, the call fails with Cancelled before touching either
underlying stream, whatever the rest of the state is. -/
theorem c3_cancelled_rejects :
    (∀ (s1 s2 : List Byte) (z1 z2 : Nat) (ex : Bool) (k n : Nat),
      JoinedRead
        { stream1 := s1, stream2 := s2, stream1Size := z1, stream2Size := z2,
          stream1Exhausted := ex, cancelled := true, exhaustedCalls := k } n
        = .error .Cancelled)
  ∧ (∀ (t1 t2 : OutStream) (ex : Bool) (k : Nat) (d : List Byte),
      JoinedWrite
        { stream1 := t1, stream2 := t2,
          stream1Exhausted := ex, cancelled := true, exhaustedCalls := k } d
        = .error .Cancelled) :=
  ⟨fun _ _ _ _ _ _ _ => rfl, fun _ _ _ _ _ => rfl⟩

/-- C9: a 15-character date with `T` at offset 8 (the YYYYMMDDThhmmss wire
format) is displayed with separators as YYYY-MM-DD hh:mm:ss. -/
theorem c9_format_time (y1 y2 y3 y4 mo1 mo2 d1 d2 h1 h2 mi1 mi2 s1 s2 : Char) :
    FormatTime (String.mk [y1, y2, y3, y4, mo1, mo2, d1, d2, 'T', h1, h2, mi1, mi2, s1, s2]) =
      String.mk [y1, y2, y3, y4, '-', mo1, mo2, '-', d1, d2, ' ',
                 h1, h2, ':', mi1, mi2, ':', s1, s2] := rfl

/-- C6: resolving a child returns the first listed handle whose filename
property equals the component (string equality, hence case-sensitive), and
fails with PathNotFound when no listed handle matches. -/
theorem c6_resolve_child :
    (∀ (dev : Device) (p : ObjectId) (e : String) (l1 l2 : List ObjectId) (o : ObjectId),
      dev.handles p = l1 ++ o :: l2 → (∀ x ∈ l1, dev.filename x ≠ e) →
      dev.filename o = e → ResolveObjectChild dev p e = .ok o)
  ∧ (∀ (dev : Device) (p : ObjectId) (e : String),
      (∀ x ∈ dev.handles p, dev.filename x ≠ e) →
      ResolveObjectChild dev p e = .error .PathNotFound) := by
  constructor
  · intro dev p e l1 l2 o hh h1 ho
    have hfind : (dev.handles p).find? (fun x => dev.filename x == e) = some o := by
      rw [hh, List.find?_append]
      have : l1.find? (fun x => dev.filename x == e) = none := by
        rw [List.find?_eq_none]
        intro x hx
        simpa using h1 x hx
      rw [this]
      simp [List.find?_cons, ho]
    simp [ResolveObjectChild, hfind]
  · intro dev p e h
    have hfind : (dev.handles p).find? (fun x => dev.filename x == e) = none := by
      rw [List.find?_eq_none]
      intro x hx
      simpa using h x hx
    simp [ResolveObjectChild, hfind]

/-- Concrete device used to witness the child-resolution claim. -/
def devW6 : Device where
  parent := fun _ => 0
  handles := fun _ => [9, 5]
  filename := fun o => if o = 5 then "a" else "x"
  sendObjectInfo := fun _ _ _ => .error .AccessDenied
  sendObject := fun _ => .ok ()

theorem c6_resolve_child_witness :
    ResolveObjectChild devW6 1 "a" = .ok 5 ∧
    ResolveObjectChild devW6 1 "zz" = .error .PathNotFound := by
  constructor
  · exact c6_resolve_child.1 devW6 1 "a" [9] [] 5 rfl (by decide) rfl
  · exact c6_resolve_child.2 devW6 1 "zz" (by decide)

theorem str_data_append (s t : String) : (s ++ t).data = s.data ++ t.data := by
  cases s; cases t; rfl

theorem str_mk_data (s : String) : String.mk s.data = s := by
  cases s; rfl

theorem str_ne_of_data_ne {s t : String} (h : s.data ≠ t.data) : s ≠ t := by
  intro he; exact h (by rw [he])

/-- One tokenizer step over a non-slash character. -/
theorem pathComponentsAux_nonslash (acc : List Char) (c : Char) (tl : List Char)
    (hc : c ≠ '/') :
    pathComponentsAux acc (c :: tl) = pathComponentsAux (acc ++ [c]) tl := by
  conv_lhs => rw [pathComponentsAux.eq_def]
  simp [hc]

/-- One tokenizer step over a slash followed by more characters. -/
theorem pathComponentsAux_slash_cons (acc : List Char) (r : Char) (rs : List Char) :
    pathComponentsAux acc ('/' :: r :: rs) =
      String.mk acc :: pathComponentsAux [] (r :: rs) := rfl

/-- The tokenizer emits nothing after a final slash. -/
theorem pathComponentsAux_slash_nil (acc : List Char) :
    pathComponentsAux acc ['/'] = [String.mk acc] := rfl

/-- Splitting the tokenizer at a slash: a slash-free run followed by a slash
and a nonempty rest yields that run as one component. -/
theorem pathComponentsAux_append_cons (xs : List Char) (hx : ∀ c ∈ xs, c ≠ '/')
    (acc : List Char) (r : Char) (rs : List Char) :
    pathComponentsAux acc (xs ++ '/' :: r :: rs) =
      String.mk (acc ++ xs) :: pathComponentsAux [] (r :: rs) := by
  induction xs generalizing acc with
  | nil => rw [List.nil_append, pathComponentsAux_slash_cons, List.append_nil]
  | cons c cs ih =>
    have hc : c ≠ '/' := hx c (List.mem_cons_self c cs)
    have hcs : ∀ x ∈ cs, x ≠ '/' := fun x hxm => hx x (List.mem_cons_of_mem c hxm)
    rw [List.cons_append, pathComponentsAux_nonslash acc c _ hc, ih hcs (acc ++ [c])]
    simp

/-- Splitting the tokenizer at a final slash: nothing is emitted after it. -/
theorem pathComponentsAux_append_last (xs : List Char) (hx : ∀ c ∈ xs, c ≠ '/')
    (acc : List Char) :
    pathComponentsAux acc (xs ++ ['/']) = [String.mk (acc ++ xs)] := by
  induction xs generalizing acc with
  | nil => rw [List.nil_append, pathComponentsAux_slash_nil, List.append_nil]
  | cons c cs ih =>
    have hc : c ≠ '/' := hx c (List.mem_cons_self c cs)
    have hcs : ∀ x ∈ cs, x ≠ '/' := fun x hxm => hx x (List.mem_cons_of_mem c hxm)
    rw [List.cons_append, pathComponentsAux_nonslash acc c _ hc, ih hcs (acc ++ [c])]
    simp

theorem pathComponents_eq_aux (s : String) (h : s.data ≠ []) :
    pathComponents s = pathComponentsAux [] s.data := by
  unfold pathComponents
  cases hd : s.data with
  | nil => exact absurd hd h
  | cons c cs => rfl

/-- A leading `.` component is a no-op for the resolution fold. -/
theorem resolveComponents_dot (dev : Device) (id : ObjectId) (rest : List String) :
    resolveComponents dev id ("." :: rest) = resolveComponents dev id rest := by
  simp [resolveComponents, resolveStep]

theorem resolveComponents_congr (dev : Device) (e : String) (id : ObjectId)
    (l1 l2 : List String)
    (h : ∀ j : ObjectId, resolveComponents dev j l1 = resolveComponents dev j l2) :
    resolveComponents dev id (e :: l1) = resolveComponents dev id (e :: l2) := by
  simp only [resolveComponents]
  cases resolveStep dev id e with
  | ok j => exact h j
  | error err => rfl

/-- C4: resolving the path consisting of a single slash yields Root, the
empty component and `.` are no-op steps, and inserting a `.` component
between two path parts does not change the resolution. -/
theorem c4_resolve_noop_components :
    (∀ (dev : Device) (cd : ObjectId), Resolve dev cd "/" = .ok RootId)
  ∧ (∀ (dev : Device) (id : ObjectId),
      resolveStep dev id "" = .ok id ∧ resolveStep dev id "." = .ok id)
  ∧ (∀ (dev : Device) (cd : ObjectId) (a b : String), (∀ c ∈ a.data, c ≠ '/') →
      Resolve dev cd (a ++ "/./" ++ b) = Resolve dev cd (a ++ "/" ++ b)) := by
  refine ⟨fun dev cd => rfl, fun dev id => ⟨rfl, rfl⟩, ?_⟩
  intro dev cd a b ha
  have hs1 : ("/./" : String).data = ['/', '.', '/'] := by decide
  have hs2 : ("/" : String).data = ['/'] := by decide
  have hdata1 : (a ++ "/./" ++ b).data = a.data ++ '/' :: '.' :: '/' :: b.data := by
    rw [str_data_append, str_data_append, hs1]; simp
  have hdata2 : (a ++ "/" ++ b).data = a.data ++ '/' :: b.data := by
    rw [str_data_append, str_data_append, hs2]; simp
  have habs : isAbsolute (a ++ "/./" ++ b) = isAbsolute (a ++ "/" ++ b) := by
    unfold isAbsolute
    rw [hdata1, hdata2]
    cases a.data with
    | nil => rfl
    | cons c cs => rfl
  have hcomps1 : pathComponents (a ++ "/./" ++ b) =
      String.mk a.data :: pathComponentsAux [] ('.' :: '/' :: b.data) := by
    rw [pathComponents_eq_aux _ (by rw [hdata1]; cases a.data <;> simp), hdata1]
    exact pathComponentsAux_append_cons a.data ha [] '.' ('/' :: b.data)
  unfold Resolve
  rw [habs, hcomps1, str_mk_data]
  cases hb : b.data with
  | nil =>
    have hcomps2 : pathComponents (a ++ "/" ++ b) = [String.mk a.data] := by
      rw [pathComponents_eq_aux _ (by rw [hdata2]; cases a.data <;> simp), hdata2, hb]
      exact pathComponentsAux_append_last a.data ha []
    rw [hcomps2, str_mk_data]
    refine resolveComponents_congr dev a _ _ _ (fun j => ?_)
    have : pathComponentsAux [] ('.' :: '/' :: []) = ["."] := rfl
    rw [this, resolveComponents_dot]
  | cons r rs =>
    have hcomps2 : pathComponents (a ++ "/" ++ b) =
        String.mk a.data :: pathComponentsAux [] (r :: rs) := by
      rw [pathComponents_eq_aux _ (by rw [hdata2]; cases a.data <;> simp), hdata2, hb]
      exact pathComponentsAux_append_cons a.data ha [] r rs
    rw [hcomps2, str_mk_data]
    refine resolveComponents_congr dev a _ _ _ (fun j => ?_)
    have : pathComponentsAux [] ('.' :: '/' :: r :: rs) =
        "." :: pathComponentsAux [] (r :: rs) := by
      have h2 : ('.' : Char) :: '/' :: r :: rs = ['.'] ++ '/' :: r :: rs := rfl
      rw [h2, pathComponentsAux_append_cons ['.'] (by decide) [] r rs]
      rfl
    rw [this, resolveComponents_dot]

/-- Concrete device used to witness the `.` no-op claim. -/
def devW4 : Device where
  parent := fun _ => 0
  handles := fun _ => [5]
  filename := fun _ => "a"
  sendObjectInfo := fun _ _ _ => .error .AccessDenied
  sendObject := fun _ => .ok ()

theorem c4_resolve_noop_components_witness :
    Resolve devW4 3 ("a" ++ "/./" ++ "a") = Resolve devW4 3 ("a" ++ "/" ++ "a") :=
  c4_resolve_noop_components.2.2 devW4 3 "a" "a" (by decide)

/-- C5: a `..` component asks GetObjectParent and folds the Device sentinel
back to Root; consequently, when component `a` exists under the starting
directory and the device reports that child's parent as the starting
directory again (after the Device-to-Root fold), resolving `a/../b` equals
resolving `b`. -/
theorem c5_resolve_parent :
    (∀ (dev : Device) (id : ObjectId),
      resolveStep dev id ".." =
        .ok (if dev.parent id = DeviceId then RootId else dev.parent id))
  ∧ (∀ (dev : Device) (cd : ObjectId) (a b : String) (c : ObjectId),
      a.data ≠ [] → (∀ ch ∈ a.data, ch ≠ '/') → a ≠ "." → a ≠ ".." →
      isAbsolute b = false →
      ResolveObjectChild dev cd a = .ok c →
      (if dev.parent c = DeviceId then RootId else dev.parent c) = cd →
      Resolve dev cd (a ++ "/../" ++ b) = Resolve dev cd b) := by
  refine ⟨fun dev id => rfl, ?_⟩
  intro dev cd a b c hne ha hdot hdotdot habs hchild hpar
  have hs1 : ("/../" : String).data = ['/', '.', '.', '/'] := by decide
  have hdata1 : (a ++ "/../" ++ b).data = a.data ++ '/' :: '.' :: '.' :: '/' :: b.data := by
    rw [str_data_append, str_data_append, hs1]; simp
  obtain ⟨c0, cs0, hcons⟩ : ∃ c0 cs0, a.data = c0 :: cs0 := by
    cases hd : a.data with
    | nil => exact absurd hd hne
    | cons c0 cs0 => exact ⟨c0, cs0, rfl⟩
  have habs1 : isAbsolute (a ++ "/../" ++ b) = false := by
    unfold isAbsolute
    rw [hdata1, hcons]
    simp only [List.cons_append]
    have : c0 ≠ '/' := ha c0 (by rw [hcons]; exact List.mem_cons_self c0 cs0)
    simp [this]
  have hcomps1 : pathComponents (a ++ "/../" ++ b) =
      a :: pathComponentsAux [] ('.' :: '.' :: '/' :: b.data) := by
    rw [pathComponents_eq_aux _ (by rw [hdata1, hcons]; simp), hdata1]
    rw [pathComponentsAux_append_cons a.data ha [] '.' ('.' :: '/' :: b.data)]
    rw [List.nil_append, str_mk_data]
  have hstep_a : resolveStep dev cd a = .ok c := by
    have h1 : ¬(a = "" ∨ a = ".") := by
      rintro (h | h)
      · exact hne (by rw [h])
      · exact hdot h
    rw [resolveStep, if_neg h1, if_neg hdotdot]
    exact hchild
  have hstep_up : resolveStep dev c ".." = .ok cd := by
    have : resolveStep dev c ".." =
        .ok (if dev.parent c = DeviceId then RootId else dev.parent c) := rfl
    rw [this, hpar]
  have htail : pathComponentsAux [] ('.' :: '.' :: '/' :: b.data) =
      ".." :: pathComponents b := by
    have h2 : ('.' : Char) :: '.' :: '/' :: b.data = ['.', '.'] ++ '/' :: b.data := rfl
    have hdd : String.mk (([] : List Char) ++ ['.', '.']) = ".." := by decide
    rw [h2]
    cases hbd : b.data with
    | nil =>
      rw [pathComponentsAux_append_last ['.', '.'] (by decide) [], hdd]
      have : pathComponents b = [] := by
        unfold pathComponents
        rw [hbd]
      rw [this]
    | cons r rs =>
      rw [pathComponentsAux_append_cons ['.', '.'] (by decide) [] r rs, hdd]
      have : pathComponents b = pathComponentsAux [] (r :: rs) := by
        rw [pathComponents_eq_aux _ (by rw [hbd]; simp), hbd]
      rw [this]
  unfold Resolve
  rw [habs1, habs, hcomps1, htail]
  simp only [Bool.false_eq_true, if_false, resolveComponents, hstep_a, hstep_up]

/-- Concrete device used to witness the `..` claim: object 5 has filename
`a` everywhere, and every parent query returns the Device sentinel, which
folds back to Root. -/
def devW5 : Device where
  parent := fun _ => DeviceId
  handles := fun _ => [5]
  filename := fun _ => "a"
  sendObjectInfo := fun _ _ _ => .error .AccessDenied
  sendObject := fun _ => .ok ()

theorem c5_resolve_parent_witness :
    Resolve devW5 RootId ("a" ++ "/../" ++ "a") = Resolve devW5 RootId "a" :=
  c5_resolve_parent.2 devW5 RootId "a" "a" 5 (by decide) (by decide) (by decide)
    (by decide) rfl rfl rfl


/-- A Read on an uncancelled joined input stream behaves like a Read on the
single stream holding its remaining bytes. -/
theorem joinedRead_spec (st : JoinedObjectInputStream) (n : Nat) (h : st.cancelled = false) :
    ∃ st2, JoinedRead st n = .ok ((remainingBytes st).take n, st2) ∧
      remainingBytes st2 = (remainingBytes st).drop n ∧ st2.cancelled = false := by
  cases hex : st.stream1Exhausted with
  | true =>
    refine ⟨{ st with stream2 := st.stream2.drop n }, ?_, ?_, h⟩
    · simp [JoinedRead, h, hex, streamRead, remainingBytes]
    · simp [remainingBytes, hex]
  | false =>
    by_cases hs : st.stream1.length < n
    · have hle1 : st.stream1.length ≤ n := Nat.le_of_lt hs
      have htake : st.stream1.take n = st.stream1 := List.take_of_length_le hle1
      refine ⟨{ st with
          stream1 := st.stream1.drop n, stream1Exhausted := true,
          exhaustedCalls := st.exhaustedCalls + 1,
          stream2 := st.stream2.drop (n - st.stream1.length) }, ?_, ?_, h⟩
      · simp [JoinedRead, h, hex, streamRead, htake, hs, remainingBytes,
          List.take_append_eq_append_take, List.take_of_length_le hle1]
      · simp [remainingBytes, hex, List.drop_append_eq_append_drop,
          List.drop_eq_nil_of_le hle1]
    · have hle : n ≤ st.stream1.length := Nat.le_of_not_lt hs
      refine ⟨{ st with stream1 := st.stream1.drop n }, ?_, ?_, h⟩
      · simp [JoinedRead, h, hex, streamRead, hs, remainingBytes,
          List.take_append_eq_append_take, Nat.sub_eq_zero_of_le hle]
      · simp [remainingBytes, hex, List.drop_append_eq_append_drop,
          Nat.sub_eq_zero_of_le hle]


/-- Reading to exhaustion drains exactly the remaining bytes, given enough
fuel. -/
theorem readToEnd_spec (chunk : Nat) :
    ∀ (fuel : Nat) (st : JoinedObjectInputStream), st.cancelled = false →
      (remainingBytes st).length < fuel * chunk →
      ReadToEnd chunk fuel st = remainingBytes st := by
  intro fuel
  induction fuel with
  | zero =>
    intro st _ hlen
    rw [Nat.zero_mul] at hlen
    omega
  | succ fuel ih =>
    intro st hcanc hlen
    obtain ⟨st2, hread, hrem, hc2⟩ := joinedRead_spec st chunk hcanc
    have hmatch : ReadToEnd chunk (fuel + 1) st =
        if ((remainingBytes st).take chunk).length < chunk
        then (remainingBytes st).take chunk
        else (remainingBytes st).take chunk ++ ReadToEnd chunk fuel st2 := by
      rw [ReadToEnd, hread]
    rw [hmatch]
    by_cases hshort : ((remainingBytes st).take chunk).length < chunk
    · have hlt : (remainingBytes st).length < chunk := by
        rw [List.length_take] at hshort; omega
      rw [if_pos hshort, List.take_of_length_le (Nat.le_of_lt hlt)]
    · have hge : chunk ≤ (remainingBytes st).length := by
        rw [List.length_take] at hshort; omega
      rw [Nat.succ_mul] at hlen
      rw [if_neg hshort, ih st2 hc2 (by rw [hrem, List.length_drop]; omega)]
      rw [hrem, List.take_append_drop]

/-- C1: reading a joined input stream to exhaustion yields the
concatenation of the two streams' contents; a single Write on a fresh
joined output stream spans both streams, accepting min(len, cap1+cap2)
bytes whose concatenation across the two streams is the written prefix. -/
theorem c1_joined_stream_concat :
    (∀ (chunk fuel : Nat) (s1 s2 : List Byte),
      s1.length + s2.length < fuel * chunk →
      ReadToEnd chunk fuel (mkJoinedInput s1 s2) = s1 ++ s2)
  ∧ (∀ (cap1 cap2 : Nat) (data : List Byte), ∃ st2,
      JoinedWrite (mkJoinedOutput ⟨cap1, []⟩ ⟨cap2, []⟩) data =
        .ok (min data.length (cap1 + cap2), st2) ∧
      st2.stream1.written ++ st2.stream2.written =
        data.take (min data.length (cap1 + cap2))) := by
  constructor
  · intro chunk fuel s1 s2 hlen
    have hrem : remainingBytes (mkJoinedInput s1 s2) = s1 ++ s2 := by
      simp [remainingBytes, mkJoinedInput]
    rw [readToEnd_spec chunk fuel _ rfl (by rw [hrem, List.length_append]; exact hlen), hrem]
  · intro cap1 cap2 data
    by_cases h : data.length ≤ cap1
    · have hmin1 : min data.length cap1 = data.length := Nat.min_eq_left h
      have hmin2 : min data.length (cap1 + cap2) = data.length := Nat.min_eq_left (by omega)
      refine ⟨{ stream1 := ⟨cap1 - data.length, data⟩, stream2 := ⟨cap2, []⟩,
                stream1Exhausted := false, cancelled := false, exhaustedCalls := 0 }, ?_, ?_⟩
      · simp [JoinedWrite, streamWrite, mkJoinedOutput, hmin1, hmin2]
      · simp [hmin2]
    · have hlt : cap1 < data.length := Nat.lt_of_not_le h
      have hmin1 : min data.length cap1 = cap1 := Nat.min_eq_right (Nat.le_of_lt hlt)
      have hk2 : (data.drop cap1).length = data.length - cap1 := List.length_drop cap1 data
      refine ⟨{ stream1 := ⟨cap1 - cap1, data.take cap1⟩,
                stream2 := ⟨cap2 - min (data.length - cap1) cap2,
                            (data.drop cap1).take (min (data.length - cap1) cap2)⟩,
                stream1Exhausted := true, cancelled := false, exhaustedCalls := 1 }, ?_, ?_⟩
      · simp only [JoinedWrite, streamWrite, mkJoinedOutput, hmin1, hk2, List.nil_append]
        simp only [Bool.false_eq_true, if_false, if_true, if_pos hlt, Except.ok.injEq,
          Prod.mk.injEq, Nat.zero_add]
        exact ⟨by omega, trivial⟩
      · simp only [List.nil_append]
        rw [← List.take_add]
        congr 1
        omega


theorem c1_joined_stream_concat_witness :
    ReadToEnd 2 3 (mkJoinedInput [1, 2, 3] [4, 5]) = [1, 2, 3] ++ [4, 5] :=
  c1_joined_stream_concat.1 2 3 [1, 2, 3] [4, 5] (by decide)


/-- C10: the exhaustion flag starts false, becomes true exactly when the
first stream returns short, is never reset, the OnStream1Exhausted hook
fires exactly at the flag's false-to-true flip, and once the flag is set a
Read or Write touches only the second stream. -/
theorem c10_exhaustion_monotone :
    (∀ s1 s2 : List Byte, (mkJoinedInput s1 s2).stream1Exhausted = false ∧
      (mkJoinedInput s1 s2).exhaustedCalls = 0)
  ∧ (∀ t1 t2 : OutStream, (mkJoinedOutput t1 t2).stream1Exhausted = false ∧
      (mkJoinedOutput t1 t2).exhaustedCalls = 0)
  ∧ (∀ (st : JoinedObjectInputStream) (n : Nat) (r : List Byte)
        (st2 : JoinedObjectInputStream), JoinedRead st n = .ok (r, st2) →
      st2.stream1Exhausted = (st.stream1Exhausted || decide (st.stream1.length < n)) ∧
      st2.exhaustedCalls = st.exhaustedCalls +
        (if st.stream1Exhausted = false ∧ st2.stream1Exhausted = true then 1 else 0) ∧
      (st.stream1Exhausted = true →
        st2.stream1 = st.stream1 ∧ r = st.stream2.take n ∧ st2.stream2 = st.stream2.drop n))
  ∧ (∀ (st : JoinedObjectOutputStream) (d : List Byte) (w : Nat)
        (st2 : JoinedObjectOutputStream), JoinedWrite st d = .ok (w, st2) →
      st2.stream1Exhausted = (st.stream1Exhausted || decide (st.stream1.capacity < d.length)) ∧
      st2.exhaustedCalls = st.exhaustedCalls +
        (if st.stream1Exhausted = false ∧ st2.stream1Exhausted = true then 1 else 0) ∧
      (st.stream1Exhausted = true →
        st2.stream1 = st.stream1 ∧ w = min d.length st.stream2.capacity ∧
        st2.stream2.written = st.stream2.written ++ d.take w)) := by
  refine ⟨fun s1 s2 => ⟨rfl, rfl⟩, fun t1 t2 => ⟨rfl, rfl⟩, ?_, ?_⟩
  · intro st n r st2 h
    cases hc : st.cancelled with
    | true => simp [JoinedRead, hc] at h
    | false =>
      cases hex : st.stream1Exhausted with
      | true =>
        simp only [JoinedRead, hc, hex, Bool.false_eq_true, if_false, streamRead,
          Except.ok.injEq, Prod.mk.injEq] at h
        rcases h with ⟨rfl, rfl⟩
        simp [hex]
      | false =>
        by_cases hshort : (st.stream1.take n).length < n
        · have hlen : st.stream1.length < n := by
            rw [List.length_take] at hshort; omega
          simp only [JoinedRead, hc, hex, Bool.false_eq_true, if_false, streamRead,
            if_pos hshort, Except.ok.injEq, Prod.mk.injEq] at h
          rcases h with ⟨rfl, rfl⟩
          simp [hex, hlen]
        · have hlen : ¬st.stream1.length < n := by
            rw [List.length_take] at hshort; omega
          simp only [JoinedRead, hc, hex, Bool.false_eq_true, if_false, streamRead,
            if_neg hshort, Except.ok.injEq, Prod.mk.injEq] at h
          rcases h with ⟨rfl, rfl⟩
          simp [hex, hlen]
  · intro st d w st2 h
    cases hc : st.cancelled with
    | true => simp [JoinedWrite, hc] at h
    | false =>
      cases hex : st.stream1Exhausted with
      | true =>
        simp only [JoinedWrite, hc, hex, Bool.false_eq_true, if_false, streamWrite,
          Except.ok.injEq, Prod.mk.injEq] at h
        rcases h with ⟨rfl, rfl⟩
        simp [hex]
      | false =>
        by_cases hshort : min d.length st.stream1.capacity < d.length
        · have hlen : st.stream1.capacity < d.length := by omega
          simp only [JoinedWrite, hc, hex, Bool.false_eq_true, if_false, streamWrite,
            if_pos hshort, Except.ok.injEq, Prod.mk.injEq] at h
          rcases h with ⟨rfl, rfl⟩
          simp [hex, hlen]
        · have hlen : ¬st.stream1.capacity < d.length := by omega
          simp only [JoinedWrite, hc, hex, Bool.false_eq_true, if_false, streamWrite,
            if_neg hshort, Except.ok.injEq, Prod.mk.injEq] at h
          rcases h with ⟨rfl, rfl⟩
          simp [hex, hlen]

/-- Input state already past the first stream, used to witness C10. -/
def stW10 : JoinedObjectInputStream :=
  { stream1 := [9], stream2 := [2, 3], stream1Size := 1, stream2Size := 2
    stream1Exhausted := true, cancelled := false, exhaustedCalls := 1 }

/-- The state after reading one byte from stW10. -/
def stW10b : JoinedObjectInputStream :=
  { stW10 with stream2 := [3] }

theorem c10_exhaustion_monotone_witness :
    stW10b.stream1Exhausted = (stW10.stream1Exhausted || decide (stW10.stream1.length < 1)) ∧
    stW10b.exhaustedCalls = stW10.exhaustedCalls +
      (if stW10.stream1Exhausted = false ∧ stW10b.stream1Exhausted = true then 1 else 0) ∧
    (stW10.stream1Exhausted = true →
      stW10b.stream1 = stW10.stream1 ∧ [2] = stW10.stream2.take 1 ∧
      stW10b.stream2 = stW10.stream2.drop 1) :=
  c10_exhaustion_monotone.2.2.1 stW10 1 [2] stW10b rfl


def devC7 : Device where
  parent := fun _ => 0
  handles := fun _ => [7]
  filename := fun _ => "sdir"
  sendObjectInfo := fun _ _ _ => .error .AccessDenied
  sendObject := fun _ => .ok ()

/-- C7 counterexample: the device rejects the directory creation with
AccessDenied — not "object already exists" — and MakeOrResolveDirectory
still resolves and returns the existing child, refuting the claim's "if and
only if the device reports that the object already exists". -/
theorem c7_counterexample :
    devC7.sendObjectInfo (GetFilename "sdir") .Association 1 = .error .AccessDenied ∧
    MtpError.AccessDenied ≠ MtpError.AlreadyExists ∧
    MakeOrResolveDirectory devC7 1 "sdir" "sdir" = .ok 7 :=
  ⟨rfl, by decide, rfl⟩

/-- C7 amended: recursive put first attempts the creation via
SendObjectInfo with format Association; when the creation attempt fails
with any error (object-already-exists being one case) the child matching
the put's src path argument is resolved and used as the destination; the
recursion visits every directory entry except `.` and `..`. -/
theorem c7_amended :
    (∀ (dev : Device) (p : ObjectId) (dst src : String) (r : ObjectId),
      CreateDirectory dev (GetFilename dst) p = .ok r →
      MakeOrResolveDirectory dev p dst src = .ok r)
  ∧ (∀ (dev : Device) (p : ObjectId) (dst src : String) (e : MtpError),
      CreateDirectory dev (GetFilename dst) p = .error e →
      MakeOrResolveDirectory dev p dst src = ResolveObjectChild dev p src)
  ∧ (∀ (dev : Device) (p : ObjectId) (dst src : String)
        (entries : List (String × LocalNode)) (dirId : ObjectId),
      MakeOrResolveDirectory dev p dst src = .ok dirId →
      (∀ name node, (name, node) ∈ entries → ¬(name = "." ∨ name = "..") →
        Put dev dirId (dst ++ "/" ++ name) (src ++ "/" ++ name) node =
          (none, [dst ++ "/" ++ name])) →
      Put dev p dst src (.dir entries) =
        (none, dst :: (entries.filter
            (fun q => !(q.1 == "." || q.1 == ".."))).map (fun q => dst ++ "/" ++ q.1))) := by
  refine ⟨?_, ?_, ?_⟩
  · intro dev p dst src r h
    rw [MakeOrResolveDirectory, h]
  · intro dev p dst src e h
    rw [MakeOrResolveDirectory, h]
  · intro dev p dst src entries dirId hmk hok
    have hentries : ∀ es : List (String × LocalNode),
        (∀ name node, (name, node) ∈ es → ¬(name = "." ∨ name = "..") →
          Put dev dirId (dst ++ "/" ++ name) (src ++ "/" ++ name) node =
            (none, [dst ++ "/" ++ name])) →
        PutEntries dev dirId dst src es =
          (none, (es.filter (fun q => !(q.1 == "." || q.1 == ".."))).map
            (fun q => dst ++ "/" ++ q.1)) := by
      intro es
      induction es with
      | nil => intro _; rfl
      | cons q rest ih =>
        intro hq
        obtain ⟨name, node⟩ := q
        by_cases hdot : name = "." ∨ name = ".."
        · rw [PutEntries, if_pos hdot,
            ih (fun n2 d2 hm => hq n2 d2 (List.mem_cons_of_mem _ hm))]
          have : ((name, node) :: rest).filter (fun q => !(q.1 == "." || q.1 == "..")) =
              rest.filter (fun q => !(q.1 == "." || q.1 == "..")) := by
            rw [List.filter_cons]
            rcases hdot with h | h <;> simp [h]
          rw [this]
        · have hput := hq name node (List.mem_cons_self _ _) hdot
          rw [PutEntries, if_neg hdot, hput,
            ih (fun n2 d2 hm => hq n2 d2 (List.mem_cons_of_mem _ hm))]
          have : ((name, node) :: rest).filter (fun q => !(q.1 == "." || q.1 == "..")) =
              (name, node) :: rest.filter (fun q => !(q.1 == "." || q.1 == "..")) := by
            rw [List.filter_cons]
            have h1 : name ≠ "." := fun h => hdot (Or.inl h)
            have h2 : name ≠ ".." := fun h => hdot (Or.inr h)
            simp [h1, h2]
          rw [this]
          rfl
    rw [Put, hmk]
    simp only [hentries entries hok]

def devW7 : Device where
  parent := fun _ => 0
  handles := fun _ => [7]
  filename := fun _ => "s"
  sendObjectInfo := fun _ fmt _ => if fmt = .Association then .error .AlreadyExists else .ok 20
  sendObject := fun _ => .ok ()

theorem c7_amended_witness :
    Put devW7 1 "s" "s" (.dir [("f", .file 1)]) = (none, ["s", "s/f"]) :=
  c7_amended.2.2 devW7 1 "s" "s" [("f", .file 1)] 7 rfl
    (by
      intro name node hmem hdot
      simp only [List.mem_singleton, Prod.mk.injEq] at hmem
      obtain ⟨rfl, rfl⟩ := hmem
      rfl)

def devC8 : Device where
  parent := fun _ => 0
  handles := fun _ => [7]
  filename := fun _ => "x"
  sendObjectInfo := fun name fmt _ =>
    if fmt = .Association then .ok 10
    else if name = "f1" then .error .AccessDenied else .ok 11
  sendObject := fun _ => .ok ()

/-- C8 counterexample: with a device that accepts every upload except file
`f1`, recursive put of a two-file directory stops at `f1`'s error; `f2` is
never visited, refuting "the traversal continues with the remaining
entries". -/
theorem c8_counterexample :
    Put devC8 1 "d" "s" (.dir [("f1", .file 0), ("f2", .file 0)]) =
      (some .AccessDenied, ["d", "d/f1"]) ∧
    devC8.sendObjectInfo "f2" .Other 10 = .ok 11 ∧
    "d/f2" ∉ ["d", "d/f1"] :=
  ⟨rfl, rfl, by decide⟩

/-- C8 amended: during a recursive put, an error raised while transferring
a single entry is not caught: it propagates, the remaining entries are not
visited, and the whole operation fails with that error. -/
theorem c8_amended (dev : Device) (dirId : ObjectId) (dst src name : String)
    (node : LocalNode) (rest : List (String × LocalNode)) (e : MtpError)
    (log : List String) (h1 : ¬(name = "." ∨ name = ".."))
    (h2 : Put dev dirId (dst ++ "/" ++ name) (src ++ "/" ++ name) node = (some e, log)) :
    PutEntries dev dirId dst src ((name, node) :: rest) = (some e, log) := by
  rw [PutEntries, if_neg h1, h2]

theorem c8_amended_witness :
    PutEntries devC8 10 "d" "s" [("f1", .file 0), ("f2", .file 0)] =
      (some .AccessDenied, ["d/f1"]) :=
  c8_amended devC8 10 "d" "s" "f1" (.file 0) [("f2", .file 0)] .AccessDenied ["d/f1"]
    (by decide) rfl


end Aftl
